import Mathlib

/-!
Shallow embedding of the Wordle server core (Go sources under `server/`):
the guess-evaluation algorithm (`models.go`), the word-list component
(`wordlist.go`), and the game service (`service.go`) together with the
in-memory semantics of the SQL-backed repositories (insert with schema
defaults, update by id).

Modelling conventions:
* Go strings are modelled as `List Char`; the corpus is ASCII (the spec
  limits the alphabet to ASCII A-Z), so byte length and rune length agree
  and `strings.ToUpper`/`ToLower` agree with the ASCII case maps
  `Char.toUpper`/`Char.toLower`.
* Go `int` is modelled as `Int`.
* `time.Now()` and generated ids are passed in as explicit parameters.
* `rand.Intn n` is modelled by an oracle index `k` reduced mod `n`.
-/

namespace Wordle

/-- The rune `0`, used by `EvaluateGuess` in `models.go` to mark a target
letter as consumed (`targetChars[i] = 0`). -/
def nulChar : Char := Char.ofNat 0

/-- Code points Go's `unicode.IsSpace` accepts (the White_Space property). -/
def spaceNat (n : Nat) : Bool :=
  (9 ≤ n && n ≤ 13) || n == 32 || n == 133 || n == 160 || n == 5760 ||
  (8192 ≤ n && n ≤ 8202) || n == 8232 || n == 8233 || n == 8239 ||
  n == 8287 || n == 12288

/-- `unicode.IsSpace`, as used by `strings.TrimSpace`. -/
def goIsSpace (c : Char) : Bool := spaceNat c.toNat

/-- `strings.ToUpper` (ASCII fragment). -/
def toUpperStr (w : List Char) : List Char := w.map Char.toUpper

/-- `strings.ToLower` (ASCII fragment). -/
def toLowerStr (w : List Char) : List Char := w.map Char.toLower

/-- `strings.TrimSpace`: drop leading and trailing whitespace. -/
def trimSpace (w : List Char) : List Char :=
  ((w.dropWhile goIsSpace).reverse.dropWhile goIsSpace).reverse

/-- `LetterResult` from `models.go`: one letter of a guess together with its
status string, one of `"correct"`, `"present"`, `"absent"`. -/
structure LetterResult where
  letter : Char
  status : String
deriving DecidableEq, Repr

/-- First pass of `EvaluateGuess` (`models.go`): walk the guess with index
`i`; every position starts out `"absent"`; if the guess letter equals
`targetChars[i]` the position becomes `"correct"` and `targetChars[i]` is
overwritten with the rune 0 to mark it consumed.  Returns the result row
and the mutated `targetChars`. -/
def firstPass : List Char → Nat → List Char → List LetterResult × List Char
  | [], _, tc => ([], tc)
  | c :: rest, i, tc =>
    match tc[i]? with
    | some t =>
      if c = t then
        let p := firstPass rest (i + 1) (tc.set i nulChar)
        (⟨c, "correct"⟩ :: p.1, p.2)
      else
        let p := firstPass rest (i + 1) tc
        (⟨c, "absent"⟩ :: p.1, p.2)
    | none =>
      let p := firstPass rest (i + 1) tc
      (⟨c, "absent"⟩ :: p.1, p.2)

/-- Inner loop of the second pass of `EvaluateGuess`: scan `targetChars`
left to right for the first entry that is not the consumed marker and
equals the guess letter; overwrite it with the marker.  `none` when no
unconsumed occurrence matches. -/
def scanTarget : List Char → Char → Option (List Char)
  | [], _ => none
  | t :: rest, c =>
    if t ≠ nulChar ∧ c = t then some (nulChar :: rest)
    else (scanTarget rest c).map (fun r => t :: r)

/-- Second pass of `EvaluateGuess`: positions already `"correct"` are kept;
otherwise a successful scan turns the position `"present"` and consumes the
matched target letter, and a failed scan leaves the `"absent"` from the
first pass. -/
def secondPass : List LetterResult → List Char → List LetterResult
  | [], _ => []
  | r :: rs, tc =>
    if r.status = "correct" then r :: secondPass rs tc
    else
      match scanTarget tc r.letter with
      | some tc2 => ⟨r.letter, "present"⟩ :: secondPass rs tc2
      | none => r :: secondPass rs tc

/-- `EvaluateGuess` from `models.go`: `nil` (here `none`) when the lengths
differ, otherwise uppercase both words and run the two passes. -/
def EvaluateGuess (guess target : List Char) : Option (List LetterResult) :=
  if guess.length ≠ target.length then none
  else
    let g := toUpperStr guess
    let t := toUpperStr target
    let p := firstPass g 0 t
    some (secondPass p.1 p.2)

/-- Modelled from the spec (section 4.2, first pass): for each position `i`,
if `guess[i] == target[i]`, mark `correct` and remove that target letter
from the pool eligible for `present` matching; the pool keeps unconsumed
letters as `some` and consumed positions as `none`. -/
def specFirst : List Char → List Char → List LetterResult × List (Option Char)
  | [], _ => ([], [])
  | _ :: _, [] => ([], [])
  | c :: g, t :: ts =>
    let p := specFirst g ts
    if c = t then (⟨c, "correct"⟩ :: p.1, none :: p.2)
    else (⟨c, "absent"⟩ :: p.1, some t :: p.2)

/-- Modelled from the spec (section 4.2, second pass): scan the remaining
unconsumed target letters left to right and consume the earliest matching
occurrence; `none` when no unconsumed letter matches. -/
def specConsume : List (Option Char) → Char → Option (List (Option Char))
  | [], _ => none
  | none :: rest, c => (specConsume rest c).map (fun r => none :: r)
  | some t :: rest, c =>
    if c = t then some (none :: rest)
    else (specConsume rest c).map (fun r => some t :: r)

/-- Modelled from the spec (section 4.2): each position not already
`correct` is marked `present` if an unconsumed target letter matches
(consuming it), and `absent` otherwise. -/
def specSecond : List LetterResult → List (Option Char) → List LetterResult
  | [], _ => []
  | r :: rs, pool =>
    if r.status = "correct" then r :: specSecond rs pool
    else
      match specConsume pool r.letter with
      | some pool2 => ⟨r.letter, "present"⟩ :: specSecond rs pool2
      | none => ⟨r.letter, "absent"⟩ :: specSecond rs pool

/-- Modelled from the spec (section 4.2): the complete two-pass evaluation
algorithm, written with an explicit pool of unconsumed target letters. -/
def EvaluateGuessSpec (guess target : List Char) : Option (List LetterResult) :=
  if guess.length = target.length then
    let g := toUpperStr guess
    let t := toUpperStr target
    let p := specFirst g t
    some (specSecond p.1 p.2)
  else none

example :
    EvaluateGuess ['S', 'P', 'E', 'E', 'D'] ['E', 'R', 'A', 'S', 'E'] =
      some [⟨'S', "present"⟩, ⟨'P', "absent"⟩, ⟨'E', "present"⟩,
        ⟨'E', "present"⟩, ⟨'D', "absent"⟩] := by decide

example :
    EvaluateGuessSpec ['S', 'P', 'E', 'E', 'D'] ['E', 'R', 'A', 'S', 'E'] =
      some [⟨'S', "present"⟩, ⟨'P', "absent"⟩, ⟨'E', "present"⟩,
        ⟨'E', "present"⟩, ⟨'D', "absent"⟩] := by decide

example :
    EvaluateGuess ['w', 'o', 'r', 'l', 'd'] ['H', 'E', 'L', 'L', 'O'] =
      some [⟨'W', "absent"⟩, ⟨'O', "present"⟩, ⟨'R', "absent"⟩,
        ⟨'L', "correct"⟩, ⟨'D', "absent"⟩] := by decide

/-! ## Word list (`wordlist.go`) -/

/-- `WordList` from `wordlist.go`: a validation word slice with its lookup
set and a target word slice with its lookup set, plus the two source
paths.  The Go `map[string]bool` sets are modelled as duplicate-free lists
queried with `List.contains`. -/
structure WordList where
  validWords : List (List Char)
  validWordSet : List (List Char)
  targetWords : List (List Char)
  targetWordSet : List (List Char)
  validFilePath : String
  targetFilePath : String
deriving DecidableEq, Repr

/-- Map insertion `m[w] = true`: a no-op when the key is present. -/
def insertSet (s : List (List Char)) (w : List Char) : List (List Char) :=
  if s.contains w then s else s ++ [w]

/-- `WordList.Contains` (`wordlist.go`): case-insensitive membership in the
validation set. -/
def Contains (wl : WordList) (word : List Char) : Bool :=
  wl.validWordSet.contains (toLowerStr word)

/-- `WordList.Size` (`wordlist.go`): number of validation words. -/
def Size (wl : WordList) : Int := wl.validWords.length

/-- `WordList.TargetWordsSize` (`wordlist.go`). -/
def TargetWordsSize (wl : WordList) : Int := wl.targetWords.length

/-- `WordList.WordsOfLength` (`wordlist.go`): validation words of the given
length. -/
def WordsOfLength (wl : WordList) (length : Int) : List (List Char) :=
  wl.validWords.filter (fun word => (word.length : Int) = length)

/-- `WordList.FiveLetterWords` (`wordlist.go`). -/
def FiveLetterWords (wl : WordList) : List (List Char) :=
  WordsOfLength wl 5

/-- `WordList.RandomWord` (`wordlist.go`): empty string when the target
list is empty, otherwise a random target word; `rand.Intn` is modelled by
the oracle index `k` reduced mod the list length. -/
def RandomWord (wl : WordList) (k : Nat) : List Char :=
  if wl.targetWords.length = 0 then []
  else wl.targetWords.getD (k % wl.targetWords.length) []

/-- A file system for the loaders: path to the file's lines, or `none`
when the file cannot be opened. -/
def FileSystem : Type := String → Option (List (List Char))

/-- The scanner loop shared by `loadValidWords` and `loadTargetWords`:
trim each line, skip blanks, lowercase, append to the slice and insert
into the set. -/
def scanLines (lines : List (List Char)) :
    List (List Char) × List (List Char) :=
  lines.foldl
    (fun acc line =>
      let word := trimSpace line
      if word ≠ [] then
        let wordLower := toLowerStr word
        (acc.1 ++ [wordLower], insertSet acc.2 wordLower)
      else acc)
    ([], [])

/-- `WordList.loadValidWords` (`wordlist.go`): on open failure return the
error with the receiver untouched; otherwise clear and repopulate
`validWords` and `validWordSet` from the file. -/
def loadValidWords (fs : FileSystem) (wl : WordList) : WordList × Option String :=
  match fs wl.validFilePath with
  | none => (wl, some ("failed to open validation word file " ++ wl.validFilePath))
  | some lines =>
    let p := scanLines lines
    ({ wl with validWords := p.1, validWordSet := p.2 }, none)

/-- `WordList.loadTargetWords` (`wordlist.go`): same shape for the target
file. -/
def loadTargetWords (fs : FileSystem) (wl : WordList) : WordList × Option String :=
  match fs wl.targetFilePath with
  | none => (wl, some ("failed to open target word file " ++ wl.targetFilePath))
  | some lines =>
    let p := scanLines lines
    ({ wl with targetWords := p.1, targetWordSet := p.2 }, none)

/-- `WordList.loadWords` (`wordlist.go`): load the validation words, and
only if that succeeded load the target words. -/
def loadWords (fs : FileSystem) (wl : WordList) : WordList × Option String :=
  match loadValidWords fs wl with
  | (wl1, some e) => (wl1, some e)
  | (wl1, none) => loadTargetWords fs wl1

/-- `WordList.Reload` (`wordlist.go`): delegates to `loadWords`. -/
def Reload (fs : FileSystem) (wl : WordList) : WordList × Option String :=
  loadWords fs wl

/-! ## Game, guess and store (`models.go`, `database_test.go` repositories,
`db/init/01-create-tables.sql` column defaults) -/

/-- `Game` from `models.go`; timestamps are abstract `Int` instants and
`CompletedAt` is the nullable pointer. -/
structure Game where
  id : String
  targetWord : List Char
  createdAt : Int
  completedAt : Option Int
  isCompleted : Bool
  isWon : Bool
  guessCount : Int
  maxGuesses : Int
deriving DecidableEq, Repr

/-- `Guess` from `models.go`; `result` is the possibly-nil `GuessResult`. -/
structure Guess where
  id : String
  gameID : String
  guessWord : List Char
  guessNumber : Int
  result : Option (List LetterResult)
  createdAt : Int
deriving DecidableEq, Repr

/-- `GameConfig` from `config.go`. -/
structure GameConfig where
  maxGuesses : Int
  wordLength : Int
deriving DecidableEq, Repr

/-- `GameResponse` from `models.go`. -/
structure GameResponse where
  game : Game
  guesses : List Guess
  message : String
deriving DecidableEq, Repr

/-- The database visible to the repositories: the `games` and `guesses`
tables. -/
structure Store where
  games : List Game
  guesses : List Guess
deriving DecidableEq, Repr

/-- `GameRepository.CreateGame` (`database_test.go`): the `INSERT` supplies
only `target_word`, `max_guesses` and `created_at`; the remaining columns
take the schema defaults of `01-create-tables.sql`: `completed_at` null,
`is_completed` false, `is_won` false, `guess_count` 0. -/
def createGameRow (id : String) (now : Int) (targetWord : List Char)
    (maxGuesses : Int) : Game :=
  { id := id, targetWord := targetWord, createdAt := now, completedAt := none,
    isCompleted := false, isWon := false, guessCount := 0,
    maxGuesses := maxGuesses }

/-- `GameRepository.GetGame`: select by id. -/
def getGameRow (s : Store) (gameID : String) : Option Game :=
  s.games.find? (fun g => g.id == gameID)

/-- `GameRepository.UpdateGame`: overwrite the mutable columns of the row
with matching id; "game not found" when no row is affected. -/
def updateGameRow (s : Store) (g : Game) : Store × Option String :=
  if s.games.any (fun x => x.id == g.id) then
    ({ s with games := s.games.map (fun x => if x.id == g.id then g else x) },
      none)
  else (s, some ("game not found: " ++ g.id))

/-- `GuessRepository.CreateGuess`: insert a row (id and timestamp supplied
by the database, here passed in). -/
def createGuessRow (s : Store) (newId : String) (now : Int) (gameID : String)
    (guessWord : List Char) (guessNumber : Int)
    (result : Option (List LetterResult)) : Store × Guess :=
  let guess : Guess :=
    { id := newId, gameID := gameID, guessWord := guessWord,
      guessNumber := guessNumber, result := result, createdAt := now }
  ({ s with guesses := s.guesses ++ [guess] }, guess)

/-- `GuessRepository.GetGuessesByGameID`: select by game id ordered by
`guess_number` ascending. -/
def getGuessesByGameID (s : Store) (gameID : String) : List Guess :=
  (s.guesses.filter (fun g => g.gameID == gameID)).mergeSort
    (fun a b => a.guessNumber ≤ b.guessNumber)

/-! ## Game service (`service.go`) -/

/-- `GameService.CreateNewGame` (`service.go`): error when there are no
five-letter validation words, otherwise uppercase a random target word and
insert the new game row.  `k` is the randomness oracle, `now` the clock,
`newId` the generated id. -/
def CreateNewGame (cfg : GameConfig) (wl : WordList) (s : Store) (k : Nat)
    (now : Int) (newId : String) : Store × Except String Game :=
  if (FiveLetterWords wl).length = 0 then
    (s, .error "no five-letter words available")
  else
    let targetWord := toUpperStr (RandomWord wl k)
    let game := createGameRow newId now targetWord cfg.maxGuesses
    ({ s with games := s.games ++ [game] }, .ok game)

/-- The single quote character, used in the invalid-word message. -/
def quote : String := String.singleton (Char.ofNat 39)

/-- `GameService.MakeGuess` (`service.go`), threading the store through
every repository call: load the game; reject a completed game; trim,
uppercase and length-check the guess; reject unknown words; reject when no
guesses remain; then evaluate, insert the guess row, update the game row
(stamping `completedAt` only when the game just completed) and compose the
response message. -/
def MakeGuess (cfg : GameConfig) (wl : WordList) (s : Store) (gameID : String)
    (guessWord0 : List Char) (now : Int) (newGuessId : String) :
    Store × Except String GameResponse :=
  match getGameRow s gameID with
  | none => (s, .error ("failed to get game: game not found: " ++ gameID))
  | some game =>
    if game.isCompleted then (s, .error "game is already completed")
    else
      let guessWord := toUpperStr (trimSpace guessWord0)
      if (guessWord.length : Int) ≠ cfg.wordLength then
        (s, .error ("guess must be " ++ toString cfg.wordLength ++
          " letters long"))
      else if ¬ Contains wl guessWord then
        (s, .error (quote ++ String.mk guessWord ++ quote ++
          " is not a valid word"))
      else if game.guessCount ≥ game.maxGuesses then
        (s, .error "no remaining guesses")
      else
        let result := EvaluateGuess guessWord game.targetWord
        let guessNumber := game.guessCount + 1
        let p := createGuessRow s newGuessId now gameID guessWord guessNumber
          result
        let isWin := guessWord = game.targetWord
        let game2 : Game :=
          { game with
            guessCount := guessNumber,
            isWon := isWin,
            isCompleted := isWin ∨ guessNumber ≥ game.maxGuesses,
            completedAt :=
              if isWin ∨ guessNumber ≥ game.maxGuesses then some now
              else game.completedAt }
        match updateGameRow p.1 game2 with
        | (s2, some e) => (s2, .error ("failed to update game: " ++ e))
        | (s2, none) =>
          let guesses := getGuessesByGameID s2 gameID
          let message :=
            if game2.isWon then
              "Congratulations! You won in " ++ toString game2.guessCount ++
                " guess(es)!"
            else if game2.isCompleted then
              "Game over! The word was " ++ quote ++
                String.mk game2.targetWord ++ quote
            else
              "Good guess! " ++
                toString (game2.maxGuesses - game2.guessCount) ++
                " guess(es) remaining"
          (s2, .ok { game := game2, guesses := guesses, message := message })

/-- `GameService.GetRecentGames` (`service.go`): replace an out-of-range
limit by the default 10, then call the repository; the repository call is
abstracted by the function `repo`. -/
def GetRecentGames (repo : Int → List Game) (limit : Int) : List Game :=
  let limit2 := if limit ≤ 0 ∨ limit > 100 then 10 else limit
  repo limit2

/-- `GameService.ValidateWord` (`service.go`): trim, check the configured
length, then corpus membership. -/
def ValidateWord (cfg : GameConfig) (wl : WordList) (word : List Char) : Bool :=
  let word2 := trimSpace word
  if (word2.length : Int) ≠ cfg.wordLength then false
  else Contains wl word2

/-- `GameService.GetGameStats` (`service.go`): the stats mapping (as an
association list in insertion order) and the always-nil error. -/
def GetGameStats (cfg : GameConfig) (wl : WordList) :
    List (String × Int) × Option String :=
  ([("total_words", Size wl),
    ("five_letter_words", ((FiveLetterWords wl).length : Int)),
    ("max_guesses", cfg.maxGuesses),
    ("word_length", cfg.wordLength)], none)

/-! ## Helper lemmas -/

theorem firstPass_fst_length (g : List Char) (i : Nat) (tc : List Char) :
    ((firstPass g i tc).1).length = g.length := by
  induction g generalizing i tc with
  | nil => rfl
  | cons c rest ih =>
    unfold firstPass
    cases h : tc[i]? with
    | none => simp [ih]
    | some t => by_cases hc : c = t <;> simp [hc, ih]

theorem secondPass_length (rs : List LetterResult) (tc : List Char) :
    (secondPass rs tc).length = rs.length := by
  induction rs generalizing tc with
  | nil => rfl
  | cons r rest ih =>
    unfold secondPass
    by_cases h : r.status = "correct"
    · simp [h, ih]
    · cases hs : scanTarget tc r.letter <;> simp [h, hs, ih]

/-! ## Claim theorems -/

/-- C4: `EvaluateGuess` returns the explicit no-result value `none` exactly
when the two words have different lengths, and on equal lengths returns a
row of letter results whose length is the guess's length. -/
theorem evaluateGuess_none_iff_length (guess target : List Char)
    (rs : List LetterResult) :
    (EvaluateGuess guess target = none ↔ guess.length ≠ target.length) ∧
    (EvaluateGuess guess target = some rs → rs.length = guess.length) := by
  unfold EvaluateGuess
  by_cases h : guess.length ≠ target.length
  · simp [h]
  · simp only [h, if_false]
    constructor
    · simp [h]
    · intro hsome
      have hrs : rs = secondPass (firstPass (toUpperStr guess) 0
          (toUpperStr target)).1 (firstPass (toUpperStr guess) 0
          (toUpperStr target)).2 := by
        exact (Option.some.injEq _ _ ▸ hsome).symm
      rw [hrs, secondPass_length, firstPass_fst_length]
      simp [toUpperStr]

/-- C4 witness: instantiation at `["A"]` against `["A"]`. -/
theorem evaluateGuess_none_iff_length_w :
    (EvaluateGuess ['A'] ['A'] = none ↔ (['A'] : List Char).length ≠
      (['A'] : List Char).length) ∧
    (EvaluateGuess ['A'] ['A'] = some [⟨'A', "correct"⟩] →
      ([⟨'A', "correct"⟩] : List LetterResult).length =
        (['A'] : List Char).length) :=
  evaluateGuess_none_iff_length ['A'] ['A'] [⟨'A', "correct"⟩]

/-- C8: `GetRecentGames` passes a limit in `[1,100]` through to the
repository unchanged and substitutes the default 10 for a limit outside
that range. -/
theorem getRecentGames_clamps (repo : Int → List Game) (limit : Int) :
    (1 ≤ limit → limit ≤ 100 → GetRecentGames repo limit = repo limit) ∧
    (limit ≤ 0 ∨ 100 < limit → GetRecentGames repo limit = repo 10) := by
  unfold GetRecentGames
  constructor
  · intro h1 h2
    rw [if_neg]
    omega
  · intro h
    rw [if_pos]
    omega

/-- C8 witness: limit 5 is passed through, limit 200 falls back to 10. -/
theorem getRecentGames_clamps_w :
    GetRecentGames (fun _ => ([] : List Game)) 5 =
      (fun _ => ([] : List Game)) 5 ∧
    GetRecentGames (fun _ => ([] : List Game)) 200 =
      (fun _ => ([] : List Game)) 10 :=
  ⟨(getRecentGames_clamps (fun _ => []) 5).1 (by decide) (by decide),
   (getRecentGames_clamps (fun _ => []) 200).2 (by decide)⟩

/-- A two-word word list used by concrete counterexamples: two five-letter
validation words, one target word. -/
def wlStats : WordList :=
  { validWords := [['c', 'r', 'a', 'n', 'e'], ['s', 'l', 'a', 't', 'e']],
    validWordSet := [['c', 'r', 'a', 'n', 'e'], ['s', 'l', 'a', 't', 'e']],
    targetWords := [['c', 'r', 'a', 'n', 'e']],
    targetWordSet := [['c', 'r', 'a', 'n', 'e']],
    validFilePath := "valid-wordle-words.txt",
    targetFilePath := "common-target-words.txt" }

/-- C9 counterexample: on a corpus with two five-letter validation words
and one target word, the stats mapping has no `target_words` key at all;
its second key is `five_letter_words` and it carries the five-letter
validation count 2, not the target-corpus size 1. -/
theorem getGameStats_no_target_words_key :
    ((GetGameStats ⟨6, 5⟩ wlStats).1.map Prod.fst =
      ["total_words", "five_letter_words", "max_guesses", "word_length"]) ∧
    ((GetGameStats ⟨6, 5⟩ wlStats).1.map Prod.fst).contains "target_words"
      = false ∧
    (GetGameStats ⟨6, 5⟩ wlStats).1.lookup "five_letter_words" = some 2 ∧
    TargetWordsSize wlStats = 1 := by decide

/-- C9 amended: `GetGameStats` always returns the mapping with exactly the
keys `total_words` (validation-corpus size), `five_letter_words` (number
of five-letter validation words), `max_guesses` and `word_length`, no
game-specific state, and a nil error. -/
theorem getGameStats_shape (cfg : GameConfig) (wl : WordList) :
    ((GetGameStats cfg wl).1.map Prod.fst =
      ["total_words", "five_letter_words", "max_guesses", "word_length"]) ∧
    (GetGameStats cfg wl).1.lookup "total_words" = some (Size wl) ∧
    (GetGameStats cfg wl).1.lookup "five_letter_words" =
      some ((FiveLetterWords wl).length : Int) ∧
    (GetGameStats cfg wl).1.lookup "max_guesses" = some cfg.maxGuesses ∧
    (GetGameStats cfg wl).1.lookup "word_length" = some cfg.wordLength ∧
    (GetGameStats cfg wl).2 = none := by
  refine ⟨rfl, ?_, ?_, ?_, ?_, rfl⟩ <;> simp [GetGameStats, List.lookup]

/-- C2: when any validation check fails — completed game, wrong
canonicalized length, unknown word, or exhausted guesses — `MakeGuess`
returns an error, leaves the store untouched (no `Guess` row, no `Game`
update), and the error is the one of the first failing check in exactly
the order completed / length / membership / remaining guesses. -/
theorem makeGuess_validation_order (cfg : GameConfig) (wl : WordList)
    (s : Store) (gameID : String) (w : List Char) (now : Int) (nid : String)
    (game : Game) (hfind : getGameRow s gameID = some game)
    (hfail : game.isCompleted = true ∨
      ((toUpperStr (trimSpace w)).length : Int) ≠ cfg.wordLength ∨
      Contains wl (toUpperStr (trimSpace w)) = false ∨
      game.maxGuesses ≤ game.guessCount) :
    (MakeGuess cfg wl s gameID w now nid).1 = s ∧
    (MakeGuess cfg wl s gameID w now nid).2 = Except.error
      (if game.isCompleted then "game is already completed"
       else if ((toUpperStr (trimSpace w)).length : Int) ≠ cfg.wordLength then
         "guess must be " ++ toString cfg.wordLength ++ " letters long"
       else if ¬ Contains wl (toUpperStr (trimSpace w)) then
         quote ++ String.mk (toUpperStr (trimSpace w)) ++ quote ++
           " is not a valid word"
       else "no remaining guesses") := by
  by_cases h1 : game.isCompleted
  · simp [MakeGuess, hfind, h1]
  · by_cases h2 : ((toUpperStr (trimSpace w)).length : Int) = cfg.wordLength
    · by_cases h3 : Contains wl (toUpperStr (trimSpace w))
      · have h4 : game.maxGuesses ≤ game.guessCount := by
          rcases hfail with h | h | h | h
          · exact absurd h h1
          · exact absurd h2 h
          · exact absurd h3 (by simp [h])
          · exact h
        simp [MakeGuess, hfind, h1, h2, h3, h4]
      · simp [MakeGuess, hfind, h1, h2, h3]
    · simp [MakeGuess, hfind, h1, h2]

/-- C2 witness: a completed game rejects the guess and the store is
untouched. -/
theorem makeGuess_validation_order_w :
    (MakeGuess ⟨6, 5⟩ wlStats
      ⟨[{ id := "g1", targetWord := ['C', 'R', 'A', 'N', 'E'], createdAt := 0,
          completedAt := some 3, isCompleted := true, isWon := true,
          guessCount := 2, maxGuesses := 6 }], []⟩ "g1"
      ['S', 'L', 'A', 'T', 'E'] 9 "u1").1 =
      ⟨[{ id := "g1", targetWord := ['C', 'R', 'A', 'N', 'E'], createdAt := 0,
          completedAt := some 3, isCompleted := true, isWon := true,
          guessCount := 2, maxGuesses := 6 }], []⟩ ∧
    (MakeGuess ⟨6, 5⟩ wlStats
      ⟨[{ id := "g1", targetWord := ['C', 'R', 'A', 'N', 'E'], createdAt := 0,
          completedAt := some 3, isCompleted := true, isWon := true,
          guessCount := 2, maxGuesses := 6 }], []⟩ "g1"
      ['S', 'L', 'A', 'T', 'E'] 9 "u1").2 = Except.error
      (if true then "game is already completed"
       else if ((toUpperStr (trimSpace ['S', 'L', 'A', 'T', 'E'])).length :
           Int) ≠ (5 : Int) then
         "guess must be " ++ toString (5 : Int) ++ " letters long"
       else if ¬ Contains wlStats
           (toUpperStr (trimSpace ['S', 'L', 'A', 'T', 'E'])) then
         quote ++ String.mk (toUpperStr (trimSpace ['S', 'L', 'A', 'T', 'E']))
           ++ quote ++ " is not a valid word"
       else "no remaining guesses") := by
  have h := makeGuess_validation_order ⟨6, 5⟩ wlStats
    ⟨[{ id := "g1", targetWord := ['C', 'R', 'A', 'N', 'E'], createdAt := 0,
        completedAt := some 3, isCompleted := true, isWon := true,
        guessCount := 2, maxGuesses := 6 }], []⟩ "g1"
    ['S', 'L', 'A', 'T', 'E'] 9 "u1"
    { id := "g1", targetWord := ['C', 'R', 'A', 'N', 'E'], createdAt := 0,
      completedAt := some 3, isCompleted := true, isWon := true,
      guessCount := 2, maxGuesses := 6 }
    (by decide) (Or.inl (by decide))
  exact h

/-- A word list whose validation corpus has a five-letter word but whose
target corpus is empty. -/
def wlNoTargets : WordList :=
  { validWords := [['c', 'r', 'a', 'n', 'e']],
    validWordSet := [['c', 'r', 'a', 'n', 'e']],
    targetWords := [], targetWordSet := [],
    validFilePath := "valid-wordle-words.txt",
    targetFilePath := "common-target-words.txt" }

/-- C5 counterexample: with an empty target corpus but a non-empty
five-letter validation corpus, `CreateNewGame` does not fail at all — it
succeeds and persists a game whose target word is the empty string drawn
from `RandomWord` on the empty list. -/
theorem createNewGame_empty_target_no_error :
    wlNoTargets.targetWords = [] ∧
    (CreateNewGame ⟨6, 5⟩ wlNoTargets ⟨[], []⟩ 0 0 "g1").2.toOption =
      some { id := "g1", targetWord := [], createdAt := 0,
             completedAt := none, isCompleted := false, isWon := false,
             guessCount := 0, maxGuesses := 6 } := by decide

/-- C5 amended: `CreateNewGame` fails with the no-five-letter-words error
exactly when the set of five-letter validation words is empty; otherwise
it draws a word from the target corpus via `RandomWord` (the empty string
when that corpus is empty), uppercases it, and persists a new game with
`guessCount = 0`, `isWon = false`, `isCompleted = false` and a null
`completedAt`. -/
theorem createNewGame_spec (cfg : GameConfig) (wl : WordList) (s : Store)
    (k : Nat) (now : Int) (newId : String) (g : Game) :
    ((CreateNewGame cfg wl s k now newId).2 =
        Except.error "no five-letter words available" ↔
      FiveLetterWords wl = []) ∧
    ((CreateNewGame cfg wl s k now newId).2 = Except.ok g →
      g.targetWord = toUpperStr (RandomWord wl k) ∧
      g.guessCount = 0 ∧ g.isWon = false ∧ g.isCompleted = false ∧
      g.completedAt = none ∧ g.maxGuesses = cfg.maxGuesses ∧
      (CreateNewGame cfg wl s k now newId).1.games = s.games ++ [g] ∧
      (CreateNewGame cfg wl s k now newId).1.guesses = s.guesses) := by
  by_cases h : (FiveLetterWords wl).length = 0
  · have h0 : FiveLetterWords wl = [] := List.length_eq_zero.mp h
    simp [CreateNewGame, h, h0]
  · have h0 : FiveLetterWords wl ≠ [] := by
      intro he
      exact h (by simp [he])
    constructor
    · simp [CreateNewGame, h, h0]
    · intro hok
      have hg : g = createGameRow newId now (toUpperStr (RandomWord wl k))
          cfg.maxGuesses := by
        have := hok
        simp only [CreateNewGame, h, if_false] at this
        exact (Except.ok.injEq _ _ ▸ this).symm
      subst hg
      simp [CreateNewGame, h, createGameRow]

/-- C5 witness: a singleton target corpus; creation succeeds with the
uppercased drawn word and a fresh game row. -/
theorem createNewGame_spec_w :
    ((CreateNewGame ⟨6, 5⟩ wlStats ⟨[], []⟩ 0 0 "g1").2 =
        Except.error "no five-letter words available" ↔
      FiveLetterWords wlStats = []) ∧
    ((CreateNewGame ⟨6, 5⟩ wlStats ⟨[], []⟩ 0 0 "g1").2 = Except.ok
        { id := "g1", targetWord := ['C', 'R', 'A', 'N', 'E'], createdAt := 0,
          completedAt := none, isCompleted := false, isWon := false,
          guessCount := 0, maxGuesses := 6 } →
      ({ id := "g1", targetWord := ['C', 'R', 'A', 'N', 'E'], createdAt := 0,
          completedAt := none, isCompleted := false, isWon := false,
          guessCount := 0, maxGuesses := 6 } : Game).targetWord =
        toUpperStr (RandomWord wlStats 0) ∧
      (0 : Int) = 0 ∧ false = false ∧ false = false ∧
      (none : Option Int) = none ∧ (6 : Int) = (⟨6, 5⟩ : GameConfig).maxGuesses ∧
      (CreateNewGame ⟨6, 5⟩ wlStats ⟨[], []⟩ 0 0 "g1").1.games = [] ++
        [{ id := "g1", targetWord := ['C', 'R', 'A', 'N', 'E'], createdAt := 0,
           completedAt := none, isCompleted := false, isWon := false,
           guessCount := 0, maxGuesses := 6 }] ∧
      (CreateNewGame ⟨6, 5⟩ wlStats ⟨[], []⟩ 0 0 "g1").1.guesses = []) :=
  createNewGame_spec ⟨6, 5⟩ wlStats ⟨[], []⟩ 0 0 "g1"
    { id := "g1", targetWord := ['C', 'R', 'A', 'N', 'E'], createdAt := 0,
      completedAt := none, isCompleted := false, isWon := false,
      guessCount := 0, maxGuesses := 6 }

/-- A prior word-list state with non-empty contents in all four sets. -/
def wlOld : WordList :=
  { validWords := [['o', 'l', 'd']], validWordSet := [['o', 'l', 'd']],
    targetWords := [['t', 'o', 'p']], targetWordSet := [['t', 'o', 'p']],
    validFilePath := "v", targetFilePath := "t" }

/-- A file system where the validation file is readable and the target
file is unreadable. -/
def fsHalf : FileSystem :=
  fun p => if p = "v" then some [['n', 'e', 'w']] else none

/-- C7 counterexample: reloading over `fsHalf` fails (the target source is
unreadable), yet the validation word list has already been replaced by the
new file contents while the target word list still holds its old
contents — the failed load is observable as one set replaced and the
other stale. -/
theorem reload_not_atomic :
    (Reload fsHalf wlOld).2 = some "failed to open target word file t" ∧
    (Reload fsHalf wlOld).1.validWords = [['n', 'e', 'w']] ∧
    wlOld.validWords = [['o', 'l', 'd']] ∧
    (Reload fsHalf wlOld).1.validWords ≠ wlOld.validWords ∧
    (Reload fsHalf wlOld).1.targetWords = wlOld.targetWords := by decide

/-- The validation sets of `wl` replaced by the scanned pair `p`. -/
def withValid (wl : WordList) (p : List (List Char) × List (List Char)) :
    WordList :=
  { wl with validWords := p.1, validWordSet := p.2 }

/-- The target sets of `wl` replaced by the scanned pair `p`. -/
def withTarget (wl : WordList) (p : List (List Char) × List (List Char)) :
    WordList :=
  { wl with targetWords := p.1, targetWordSet := p.2 }

/-- C7 amended: loading is sequential, not atomic.  An unreadable
validation source fails and leaves every set unchanged; a readable
validation source with an unreadable target source fails after the
validation slice and set have already been cleared and replaced with the
new file contents, the target slice and set keeping their prior contents;
when both sources are readable all four are replaced (and the code takes
no lock, so the intermediate state is what a concurrent reader would
observe mid-reload). -/
theorem reload_sequential (fs : FileSystem) (wl : WordList)
    (lines lines2 : List (List Char)) :
    (fs wl.validFilePath = none →
      Reload fs wl = (wl, some ("failed to open validation word file " ++
        wl.validFilePath))) ∧
    (fs wl.validFilePath = some lines → fs wl.targetFilePath = none →
      Reload fs wl = (withValid wl (scanLines lines),
        some ("failed to open target word file " ++ wl.targetFilePath))) ∧
    (fs wl.validFilePath = some lines → fs wl.targetFilePath = some lines2 →
      Reload fs wl =
        (withTarget (withValid wl (scanLines lines)) (scanLines lines2),
          none)) := by
  refine ⟨fun h1 => ?_, fun h1 h2 => ?_, fun h1 h2 => ?_⟩
  · simp [Reload, loadWords, loadValidWords, loadTargetWords, h1]
  · simp [Reload, loadWords, loadValidWords, loadTargetWords, withValid,
      h1, h2]
  · simp [Reload, loadWords, loadValidWords, loadTargetWords, withValid,
      withTarget, h1, h2]

/-- C7 witness: instantiation over `fsHalf`, exercising the torn branch. -/
theorem reload_sequential_w :
    (fsHalf wlOld.validFilePath = none →
      Reload fsHalf wlOld = (wlOld,
        some ("failed to open validation word file " ++
          wlOld.validFilePath))) ∧
    (fsHalf wlOld.validFilePath = some [['n', 'e', 'w']] →
      fsHalf wlOld.targetFilePath = none →
      Reload fsHalf wlOld = (withValid wlOld (scanLines [['n', 'e', 'w']]),
        some ("failed to open target word file " ++
          wlOld.targetFilePath))) ∧
    (fsHalf wlOld.validFilePath = some [['n', 'e', 'w']] →
      fsHalf wlOld.targetFilePath = some [] →
      Reload fsHalf wlOld =
        (withTarget (withValid wlOld (scanLines [['n', 'e', 'w']]))
          (scanLines []), none)) :=
  reload_sequential fsHalf wlOld [['n', 'e', 'w']] []

/-- An in-progress game (not completed, guesses remaining) that carries a
stale non-null `completedAt`. -/
def gameStale : Game :=
  { id := "g1", targetWord := ['C', 'R', 'A', 'N', 'E'], createdAt := 0,
    completedAt := some 5, isCompleted := false, isWon := false,
    guessCount := 0, maxGuesses := 6 }

/-- C3 counterexample: `gameStale` satisfies the claim's in-progress
conditions (`isCompleted` false, `guessCount < maxGuesses`) and the guess
`SLATE` is valid, yet after the successful `MakeGuess` the updated game is
still not completed while `completedAt` is non-null (the code only writes
`completedAt` when the game completes and otherwise leaves the old value),
so "completedAt is set if and only if the game is now completed" fails. -/
theorem makeGuess_completedAt_not_iff :
    gameStale.isCompleted = false ∧
    gameStale.guessCount < gameStale.maxGuesses ∧
    ((toUpperStr (trimSpace ['S', 'L', 'A', 'T', 'E'])).length : Int) = 5 ∧
    Contains wlStats (toUpperStr (trimSpace ['S', 'L', 'A', 'T', 'E'])) =
      true ∧
    ((MakeGuess ⟨6, 5⟩ wlStats ⟨[gameStale], []⟩ "g1"
        ['S', 'L', 'A', 'T', 'E'] 100 "u1").2.toOption.map
      (fun r => (r.game.isCompleted, r.game.completedAt))) =
        some (false, some 5) := by decide

/-- C3 amended: for an in-progress game whose stored `completedAt` is
still null and a valid guess, the successful `MakeGuess` persists exactly
one new `Guess` row carrying `guessNumber = old guessCount + 1` and the
evaluation result, and updates the game so that `guessCount` grows by one,
`isWon` holds exactly when the canonical guess equals the target,
`isCompleted` holds exactly when `isWon` or the new count reaches
`maxGuesses`, and `completedAt` is non-null exactly when the game is now
completed. -/
theorem makeGuess_success_update (cfg : GameConfig) (wl : WordList)
    (s : Store) (gameID : String) (w : List Char) (now : Int) (nid : String)
    (game : Game) (resp : GameResponse)
    (hfind : getGameRow s gameID = some game)
    (h1 : game.isCompleted = false)
    (h2 : game.guessCount < game.maxGuesses)
    (h3 : ((toUpperStr (trimSpace w)).length : Int) = cfg.wordLength)
    (h4 : Contains wl (toUpperStr (trimSpace w)) = true)
    (h5 : game.completedAt = none)
    (hresp : (MakeGuess cfg wl s gameID w now nid).2 = Except.ok resp) :
    resp.game.guessCount = game.guessCount + 1 ∧
    (resp.game.isWon = true ↔ toUpperStr (trimSpace w) = game.targetWord) ∧
    (resp.game.isCompleted = true ↔
      (resp.game.isWon = true ∨ game.maxGuesses ≤ game.guessCount + 1)) ∧
    (resp.game.completedAt ≠ none ↔ resp.game.isCompleted = true) ∧
    (MakeGuess cfg wl s gameID w now nid).1.guesses = s.guesses ++
      [{ id := nid, gameID := gameID, guessWord := toUpperStr (trimSpace w),
         guessNumber := game.guessCount + 1,
         result := EvaluateGuess (toUpperStr (trimSpace w)) game.targetWord,
         createdAt := now }] ∧
    (MakeGuess cfg wl s gameID w now nid).1.games =
      s.games.map (fun x => if x.id == game.id then resp.game else x) := by
  have hfind2 : s.games.find? (fun g => g.id == gameID) = some game := hfind
  have hmem : game ∈ s.games := List.mem_of_find?_eq_some hfind2
  have hid := List.find?_some hfind2
  have hnc : ¬ ((toUpperStr (trimSpace w)).length : Int) ≠ cfg.wordLength :=
    fun hk => hk h3
  have hrem : ¬ game.guessCount ≥ game.maxGuesses := not_le.mpr h2
  have hany : (s.games.any (fun x => x.id == game.id)) = true :=
    List.any_eq_true.mpr ⟨game, hmem, by simp⟩
  simp only [MakeGuess, hfind, h1, Bool.false_eq_true, if_false, hnc,
    h4, not_true, not_false_iff, hrem, ite_true, ite_false,
    createGuessRow, updateGameRow, hany, Bool.not_eq_true] at hresp ⊢
  have hr : _ = resp := Except.ok.injEq _ _ ▸ hresp
  subst hr
  refine ⟨rfl, by simp, by simp, ?_, trivial, rfl⟩
  by_cases hwin : toUpperStr (trimSpace w) = game.targetWord ∨
      game.guessCount + 1 ≥ game.maxGuesses
  · simp [hwin]
  · simp [hwin, h5]

/-- A freshly created in-progress game with a null `completedAt`. -/
def gameFresh : Game :=
  { id := "g1", targetWord := ['C', 'R', 'A', 'N', 'E'], createdAt := 0,
    completedAt := none, isCompleted := false, isWon := false,
    guessCount := 0, maxGuesses := 6 }

/-- The response produced by guessing `SLATE` on `gameFresh`. -/
def respDemo : GameResponse :=
  ((MakeGuess ⟨6, 5⟩ wlStats ⟨[gameFresh], []⟩ "g1"
    ['S', 'L', 'A', 'T', 'E'] 100 "u1").2.toOption).getD
    { game := gameFresh, guesses := [], message := "" }

/-- C3 witness: the update equations at the concrete `SLATE` guess on
`gameFresh`. -/
theorem makeGuess_success_update_w :
    respDemo.game.guessCount = gameFresh.guessCount + 1 ∧
    (respDemo.game.isWon = true ↔
      toUpperStr (trimSpace ['S', 'L', 'A', 'T', 'E']) =
        gameFresh.targetWord) ∧
    (respDemo.game.isCompleted = true ↔
      (respDemo.game.isWon = true ∨
        gameFresh.maxGuesses ≤ gameFresh.guessCount + 1)) ∧
    (respDemo.game.completedAt ≠ none ↔ respDemo.game.isCompleted = true) ∧
    (MakeGuess ⟨6, 5⟩ wlStats ⟨[gameFresh], []⟩ "g1"
      ['S', 'L', 'A', 'T', 'E'] 100 "u1").1.guesses = [] ++
      [{ id := "u1", gameID := "g1",
         guessWord := toUpperStr (trimSpace ['S', 'L', 'A', 'T', 'E']),
         guessNumber := gameFresh.guessCount + 1,
         result := EvaluateGuess (toUpperStr (trimSpace
           ['S', 'L', 'A', 'T', 'E'])) gameFresh.targetWord,
         createdAt := 100 }] ∧
    (MakeGuess ⟨6, 5⟩ wlStats ⟨[gameFresh], []⟩ "g1"
      ['S', 'L', 'A', 'T', 'E'] 100 "u1").1.games =
      [gameFresh].map
        (fun x => if x.id == gameFresh.id then respDemo.game else x) :=
  makeGuess_success_update ⟨6, 5⟩ wlStats ⟨[gameFresh], []⟩ "g1"
    ['S', 'L', 'A', 'T', 'E'] 100 "u1" gameFresh respDemo rfl rfl
    (by decide) (by decide) (by decide) rfl rfl

theorem toNat_ofNat_of_lt {n : Nat} (h : n < 55296) :
    (Char.ofNat n).toNat = n := by
  have hv : n.isValidChar := Or.inl h
  unfold Char.ofNat
  rw [dif_pos hv]
  rfl

theorem toNat_injective {a b : Char} (h : a.toNat = b.toNat) : a = b := by
  have ha := Char.ofNat_toNat a
  rw [h, Char.ofNat_toNat] at ha
  exact ha.symm

theorem toLower_toNat (c : Char) :
    (Char.toLower c).toNat =
      if 65 ≤ c.toNat ∧ c.toNat ≤ 90 then c.toNat + 32 else c.toNat := by
  show (if 65 ≤ c.toNat ∧ c.toNat ≤ 90 then Char.ofNat (c.toNat + 32)
    else c).toNat = _
  by_cases h : 65 ≤ c.toNat ∧ c.toNat ≤ 90
  · rw [if_pos h, if_pos h, toNat_ofNat_of_lt (by omega)]
  · rw [if_neg h, if_neg h]

theorem toUpper_toNat (c : Char) :
    (Char.toUpper c).toNat =
      if 97 ≤ c.toNat ∧ c.toNat ≤ 122 then c.toNat - 32 else c.toNat := by
  show (if 97 ≤ c.toNat ∧ c.toNat ≤ 122 then Char.ofNat (c.toNat - 32)
    else c).toNat = _
  by_cases h : 97 ≤ c.toNat ∧ c.toNat ≤ 122
  · rw [if_pos h, if_pos h, toNat_ofNat_of_lt (by omega)]
  · rw [if_neg h, if_neg h]

theorem spaceNat_letter {m : Nat} (h1 : 65 ≤ m) (h2 : m ≤ 122) :
    spaceNat m = false := by
  simp only [spaceNat, Bool.or_eq_false_iff, Bool.and_eq_false_iff,
    decide_eq_false_iff_not, not_le, beq_eq_false_iff_ne, ne_eq]
  omega

theorem goIsSpace_eq_of_toLower_eq {c c' : Char}
    (h : Char.toLower c = Char.toLower c') :
    goIsSpace c = goIsSpace c' := by
  have hn : (Char.toLower c).toNat = (Char.toLower c').toNat := by rw [h]
  rw [toLower_toNat, toLower_toNat] at hn
  unfold goIsSpace
  by_cases h1 : 65 ≤ c.toNat ∧ c.toNat ≤ 90 <;>
    by_cases h2 : 65 ≤ c'.toNat ∧ c'.toNat ≤ 90
  · rw [if_pos h1, if_pos h2] at hn
    have : c.toNat = c'.toNat := by omega
    rw [this]
  · rw [if_pos h1, if_neg h2] at hn
    rw [spaceNat_letter (by omega) (by omega),
      spaceNat_letter (by omega) (by omega)]
  · rw [if_neg h1, if_pos h2] at hn
    rw [spaceNat_letter (by omega) (by omega),
      spaceNat_letter (by omega) (by omega)]
  · rw [if_neg h1, if_neg h2] at hn
    rw [hn]

theorem dropWhile_toLower {w w' : List Char}
    (h : toLowerStr w = toLowerStr w') :
    toLowerStr (w.dropWhile goIsSpace) =
      toLowerStr (w'.dropWhile goIsSpace) := by
  induction w generalizing w' with
  | nil =>
    have hw : w' = [] := by
      cases w' with
      | nil => rfl
      | cons a t => simp [toLowerStr] at h
    rw [hw]
  | cons c t ih =>
    cases w' with
    | nil => simp [toLowerStr] at h
    | cons c' t' =>
      simp only [toLowerStr, List.map_cons, List.cons.injEq] at h
      obtain ⟨h1, h2⟩ := h
      have hs := goIsSpace_eq_of_toLower_eq h1
      rw [List.dropWhile_cons, List.dropWhile_cons, hs]
      by_cases hsp : goIsSpace c'
      · rw [if_pos hsp, if_pos hsp]
        exact ih h2
      · rw [if_neg hsp, if_neg hsp]
        simp only [toLowerStr, List.map_cons, List.cons.injEq]
        exact ⟨h1, h2⟩

theorem toLowerStr_reverse (w : List Char) :
    toLowerStr w.reverse = (toLowerStr w).reverse := by
  simp [toLowerStr]

theorem trimSpace_toLower {w w' : List Char}
    (h : toLowerStr w = toLowerStr w') :
    toLowerStr (trimSpace w) = toLowerStr (trimSpace w') := by
  unfold trimSpace
  rw [toLowerStr_reverse, toLowerStr_reverse]
  apply congrArg
  apply dropWhile_toLower
  rw [toLowerStr_reverse, toLowerStr_reverse]
  apply congrArg
  exact dropWhile_toLower h

theorem length_eq_of_toLower_eq {w w' : List Char}
    (h : toLowerStr w = toLowerStr w') : w.length = w'.length := by
  have := congrArg List.length h
  simpa [toLowerStr] using this

theorem validateWord_congr (cfg : GameConfig) (wl : WordList)
    {w w' : List Char} (h : toLowerStr w = toLowerStr w') :
    ValidateWord cfg wl w = ValidateWord cfg wl w' := by
  have htrim := trimSpace_toLower h
  have hlen : (trimSpace w).length = (trimSpace w').length :=
    length_eq_of_toLower_eq htrim
  show (if ((trimSpace w).length : Int) ≠ cfg.wordLength then false
    else Contains wl (trimSpace w)) =
    (if ((trimSpace w').length : Int) ≠ cfg.wordLength then false
    else Contains wl (trimSpace w'))
  rw [hlen]
  by_cases hc : ((trimSpace w').length : Int) ≠ cfg.wordLength
  · rw [if_pos hc, if_pos hc]
  · rw [if_neg hc, if_neg hc]
    unfold Contains
    rw [htrim]

theorem toLower_toLower (c : Char) :
    Char.toLower (Char.toLower c) = Char.toLower c := by
  apply toNat_injective
  rw [toLower_toNat, toLower_toNat]
  split_ifs <;> omega

theorem toLower_toUpper (c : Char) :
    Char.toLower (Char.toUpper c) = Char.toLower c := by
  apply toNat_injective
  rw [toLower_toNat, toUpper_toNat, toLower_toNat]
  split_ifs <;> omega

theorem toLowerStr_toLowerStr (w : List Char) :
    toLowerStr (toLowerStr w) = toLowerStr w := by
  simp [toLowerStr, List.map_map, Function.comp, toLower_toLower]

theorem toLowerStr_toUpperStr (w : List Char) :
    toLowerStr (toUpperStr w) = toLowerStr w := by
  simp [toLowerStr, toUpperStr, List.map_map, Function.comp, toLower_toUpper]

/-- C10: `ValidateWord` is case-insensitive — it agrees on any two words
that are case-variants of each other (equal letter-by-letter after
lowercasing), and in particular on a word, its lowercase form, and its
uppercase form. -/
theorem validateWord_case_insensitive (cfg : GameConfig) (wl : WordList)
    (w w' : List Char) (h : toLowerStr w = toLowerStr w') :
    ValidateWord cfg wl w = ValidateWord cfg wl w' ∧
    ValidateWord cfg wl w = ValidateWord cfg wl (toLowerStr w) ∧
    ValidateWord cfg wl w = ValidateWord cfg wl (toUpperStr w) :=
  ⟨validateWord_congr cfg wl h,
   validateWord_congr cfg wl (toLowerStr_toLowerStr w).symm,
   validateWord_congr cfg wl (toLowerStr_toUpperStr w).symm⟩

/-- C10 witness: `crane` and `CrAnE` validate alike, as do the lowercase
and uppercase forms of `CrAnE`. -/
theorem validateWord_case_insensitive_w :
    ValidateWord ⟨6, 5⟩ wlStats ['C', 'r', 'A', 'n', 'E'] =
      ValidateWord ⟨6, 5⟩ wlStats ['c', 'r', 'a', 'n', 'e'] ∧
    ValidateWord ⟨6, 5⟩ wlStats ['C', 'r', 'A', 'n', 'E'] =
      ValidateWord ⟨6, 5⟩ wlStats (toLowerStr ['C', 'r', 'A', 'n', 'E']) ∧
    ValidateWord ⟨6, 5⟩ wlStats ['C', 'r', 'A', 'n', 'E'] =
      ValidateWord ⟨6, 5⟩ wlStats (toUpperStr ['C', 'r', 'A', 'n', 'E']) :=
  validateWord_case_insensitive ⟨6, 5⟩ wlStats
    ['C', 'r', 'A', 'n', 'E'] ['c', 'r', 'a', 'n', 'e'] (by decide)

/-! ## Bridging the indexed first pass and the spec's pool model -/

/-- The first pass written pointwise on the two words, with the consumed
marker in place of matched target letters. -/
def firstPairs : List Char → List Char → List LetterResult × List Char
  | [], _ => ([], [])
  | _ :: _, [] => ([], [])
  | c :: g, t :: ts =>
    let p := firstPairs g ts
    if c = t then (⟨c, "correct"⟩ :: p.1, nulChar :: p.2)
    else (⟨c, "absent"⟩ :: p.1, t :: p.2)

/-- A mutated `targetChars` entry viewed as the spec's pool entry: the
consumed marker becomes `none`. -/
def abstr (c : Char) : Option Char :=
  if c = nulChar then none else some c

theorem getElem?_append_cons (done : List Char) (t : Char) (ts : List Char) :
    (done ++ t :: ts)[done.length]? = some t := by
  induction done with
  | nil => simp
  | cons d ds ih => simpa using ih

theorem set_append_cons (done : List Char) (x t : Char) (ts : List Char) :
    (done ++ t :: ts).set done.length x = done ++ x :: ts := by
  induction done with
  | nil => rfl
  | cons d ds ih => simp [ih]

theorem firstPass_eq_pairs (g : List Char) (done rest : List Char)
    (h : g.length = rest.length) :
    firstPass g done.length (done ++ rest) =
      ((firstPairs g rest).1, done ++ (firstPairs g rest).2) := by
  induction g generalizing done rest with
  | nil =>
    cases rest with
    | nil => simp [firstPass, firstPairs]
    | cons t ts => simp at h
  | cons c g' ih =>
    cases rest with
    | nil => simp at h
    | cons t ts =>
      have hlen : g'.length = ts.length := by simpa using h
      unfold firstPass firstPairs
      simp only [getElem?_append_cons]
      by_cases hc : c = t
      · rw [if_pos hc, if_pos hc, set_append_cons]
        have h2 := ih (done ++ [nulChar]) ts hlen
        simp only [List.length_append, List.length_cons, List.length_nil,
          List.append_assoc, List.cons_append, List.nil_append] at h2
        rw [h2]
      · rw [if_neg hc, if_neg hc]
        have h2 := ih (done ++ [t]) ts hlen
        simp only [List.length_append, List.length_cons, List.length_nil,
          List.append_assoc, List.cons_append, List.nil_append] at h2
        rw [h2]

theorem firstPass_zero (g t : List Char) (h : g.length = t.length) :
    firstPass g 0 t = firstPairs g t := by
  have h2 := firstPass_eq_pairs g [] t h
  simpa using h2

theorem specFirst_eq_pairs (g : List Char) (ts : List Char)
    (hts : nulChar ∉ ts) :
    specFirst g ts =
      ((firstPairs g ts).1, (firstPairs g ts).2.map abstr) := by
  induction g generalizing ts with
  | nil => cases ts <;> simp [specFirst, firstPairs]
  | cons c g' ih =>
    cases ts with
    | nil => simp [specFirst, firstPairs]
    | cons t ts' =>
      have ht : t ≠ nulChar := fun hk => hts (hk ▸ List.mem_cons_self t ts')
      have hts' : nulChar ∉ ts' := fun hk => hts (List.mem_cons_of_mem t hk)
      unfold specFirst firstPairs
      by_cases hc : c = t
      · rw [if_pos hc, if_pos hc, ih ts' hts']
        simp [abstr]
      · rw [if_neg hc, if_neg hc, ih ts' hts']
        simp [abstr, ht]

theorem specConsume_eq_scan (tc : List Char) (c : Char) :
    specConsume (tc.map abstr) c =
      (scanTarget tc c).map (fun r => r.map abstr) := by
  induction tc with
  | nil => rfl
  | cons t rest ih =>
    by_cases ht : t = nulChar
    · simp only [List.map_cons, abstr, ht, if_pos rfl, specConsume,
        scanTarget, ih]
      rw [if_neg (by simp)]
      cases scanTarget rest c <;> simp [abstr]
    · simp only [List.map_cons, abstr, if_neg ht, specConsume, scanTarget]
      by_cases hc : c = t
      · rw [if_pos hc, if_pos ⟨ht, hc⟩]
        simp [abstr]
      · rw [if_neg hc, if_neg (by tauto), ih]
        cases scanTarget rest c <;> simp [abstr, ht]

theorem specSecond_eq_secondPass (rs : List LetterResult) (tc : List Char)
    (hst : ∀ r ∈ rs, r.status = "correct" ∨ r.status = "absent") :
    specSecond rs (tc.map abstr) = secondPass rs tc := by
  induction rs generalizing tc with
  | nil => rfl
  | cons r rs' ih =>
    have hr := hst r (List.mem_cons_self r rs')
    have hrs' : ∀ x ∈ rs', x.status = "correct" ∨ x.status = "absent" :=
      fun x hx => hst x (List.mem_cons_of_mem r hx)
    unfold specSecond secondPass
    by_cases hc : r.status = "correct"
    · rw [if_pos hc, if_pos hc, ih tc hrs']
    · rw [if_neg hc, if_neg hc, specConsume_eq_scan]
      cases hscan : scanTarget tc r.letter with
      | none =>
        simp only [Option.map_none']
        have habs : r.status = "absent" := by tauto
        have hr2 : r = ⟨r.letter, "absent"⟩ := by
          cases r
          simp_all
        rw [ih tc hrs', ← hr2]
      | some tc2 =>
        simp only [Option.map_some']
        rw [ih tc2 hrs']

theorem firstPairs_statuses (g ts : List Char) :
    ∀ r ∈ (firstPairs g ts).1,
      r.status = "correct" ∨ r.status = "absent" := by
  induction g generalizing ts with
  | nil => intro r hr; cases ts <;> simp [firstPairs] at hr
  | cons c g' ih =>
    intro r hr
    cases ts with
    | nil => simp [firstPairs] at hr
    | cons t ts' =>
      unfold firstPairs at hr
      by_cases hc : c = t
      · rw [if_pos hc] at hr
        rcases List.mem_cons.mp hr with h | h
        · left
          rw [h]
        · exact ih ts' r h
      · rw [if_neg hc] at hr
        rcases List.mem_cons.mp hr with h | h
        · right
          rw [h]
        · exact ih ts' r h

theorem toUpper_ne_nul {c : Char} (h : c ≠ nulChar) :
    Char.toUpper c ≠ nulChar := by
  intro hk
  apply h
  apply toNat_injective
  have h0 : nulChar.toNat = 0 := by decide
  have h1 := toUpper_toNat c
  rw [hk, h0] at h1
  rw [h0]
  by_cases h2 : 97 ≤ c.toNat ∧ c.toNat ≤ 122
  · rw [if_pos h2] at h1
    omega
  · rw [if_neg h2] at h1
    omega

theorem toUpperStr_nul_free {target : List Char} (hT : nulChar ∉ target) :
    nulChar ∉ toUpperStr target := by
  intro hk
  rcases List.mem_map.mp hk with ⟨c, hc, hup⟩
  exact toUpper_ne_nul (fun he => hT (he ▸ hc)) hup

theorem evaluateGuess_eq_spec (guess target : List Char)
    (hT : nulChar ∉ target) :
    EvaluateGuess guess target = EvaluateGuessSpec guess target := by
  unfold EvaluateGuess EvaluateGuessSpec
  by_cases h : guess.length = target.length
  · rw [if_neg (by omega), if_pos h]
    have hlen : (toUpperStr guess).length = (toUpperStr target).length := by
      simp [toUpperStr, h]
    show some (secondPass
        (firstPass (toUpperStr guess) 0 (toUpperStr target)).1
        (firstPass (toUpperStr guess) 0 (toUpperStr target)).2) =
      some (specSecond
        (specFirst (toUpperStr guess) (toUpperStr target)).1
        (specFirst (toUpperStr guess) (toUpperStr target)).2)
    rw [firstPass_zero _ _ hlen,
      specFirst_eq_pairs _ _ (toUpperStr_nul_free hT),
      specSecond_eq_secondPass _ _ (firstPairs_statuses _ _)]
  · rw [if_pos (by omega), if_neg h]

/-- C1: on equal-length words over the game's alphabet (no NUL marker
character in the target), `EvaluateGuess` computes exactly the spec's
two-pass algorithm — first pass consuming exact positional matches, second
pass consuming the earliest unconsumed matching target letter left to
right — and in particular scores `SPEED` against `ERASE` as
present, absent, present, present, absent. -/
theorem evaluateGuess_implements_two_pass (guess target : List Char)
    (hlen : guess.length = target.length) (hT : nulChar ∉ target) :
    EvaluateGuess guess target = EvaluateGuessSpec guess target ∧
    EvaluateGuess ['S', 'P', 'E', 'E', 'D'] ['E', 'R', 'A', 'S', 'E'] =
      some [⟨'S', "present"⟩, ⟨'P', "absent"⟩, ⟨'E', "present"⟩,
        ⟨'E', "present"⟩, ⟨'D', "absent"⟩] :=
  ⟨evaluateGuess_eq_spec guess target hT, by decide⟩

/-- C1 witness: instantiation at the `SPEED` / `ERASE` scenario. -/
theorem evaluateGuess_implements_two_pass_w :
    EvaluateGuess ['S', 'P', 'E', 'E', 'D'] ['E', 'R', 'A', 'S', 'E'] =
      EvaluateGuessSpec ['S', 'P', 'E', 'E', 'D'] ['E', 'R', 'A', 'S', 'E'] ∧
    EvaluateGuess ['S', 'P', 'E', 'E', 'D'] ['E', 'R', 'A', 'S', 'E'] =
      some [⟨'S', "present"⟩, ⟨'P', "absent"⟩, ⟨'E', "present"⟩,
        ⟨'E', "present"⟩, ⟨'D', "absent"⟩] :=
  evaluateGuess_implements_two_pass ['S', 'P', 'E', 'E', 'D']
    ['E', 'R', 'A', 'S', 'E'] rfl (by decide)

/-! ## Duplicate-letter conservation -/

/-- Does this result entry hit letter `L` (letter `L` scored `correct` or
`present`)? -/
def hitP (L : Char) (r : LetterResult) : Bool :=
  r.letter == L && (r.status == "correct" || r.status == "present")

/-- Does this result entry score letter `L` as `correct`? -/
def corP (L : Char) (r : LetterResult) : Bool :=
  r.letter == L && r.status == "correct"

/-- Number of positions hitting letter `L` in a result row. -/
def hitCount (L : Char) (rs : List LetterResult) : Nat :=
  rs.countP (hitP L)

/-- Number of positions scoring letter `L` as `correct`. -/
def correctCount (L : Char) (rs : List LetterResult) : Nat :=
  rs.countP (corP L)

theorem hitCount_cons (L : Char) (r : LetterResult)
    (rs : List LetterResult) :
    hitCount L (r :: rs) = hitCount L rs + (if hitP L r then 1 else 0) := by
  simp [hitCount, List.countP_cons]

theorem correctCount_cons (L : Char) (r : LetterResult)
    (rs : List LetterResult) :
    correctCount L (r :: rs) =
      correctCount L rs + (if corP L r then 1 else 0) := by
  simp [correctCount, List.countP_cons]

theorem count_cons_eq (d t : Char) (l : List Char) :
    (t :: l).count d = l.count d + (if d = t then 1 else 0) := by
  by_cases h : d = t
  · subst h
    simp [List.count_cons]
  · have h2 : ¬ t = d := fun he => h he.symm
    simp [List.count_cons, h, h2]

theorem hitP_of_correct {r : LetterResult} (L : Char)
    (hc : r.status = "correct") : hitP L r = (r.letter == L) := by
  simp [hitP, hc]

theorem hitP_of_absent {r : LetterResult} (L : Char)
    (hc : r.status = "absent") : hitP L r = false := by
  simp [hitP, hc]

theorem hitP_present (L x : Char) :
    hitP L ⟨x, "present"⟩ = (x == L) := by
  simp [hitP]

theorem corP_of_correct {r : LetterResult} (L : Char)
    (hc : r.status = "correct") : corP L r = (r.letter == L) := by
  simp [corP, hc]

theorem corP_of_not_correct {r : LetterResult} (L : Char)
    (hc : r.status ≠ "correct") : corP L r = false := by
  simp [corP, hc]

theorem scanTarget_count {tc tc2 : List Char} {c : Char}
    (h : scanTarget tc c = some tc2) (d : Char) (hd : d ≠ nulChar) :
    tc.count d = tc2.count d + (if d = c then 1 else 0) := by
  induction tc generalizing tc2 with
  | nil => simp [scanTarget] at h
  | cons t rest ih =>
    unfold scanTarget at h
    by_cases hcond : t ≠ nulChar ∧ c = t
    · rw [if_pos hcond] at h
      obtain ⟨ht, hc⟩ := hcond
      have htc2 : tc2 = nulChar :: rest := by
        injection h with h2
        exact h2.symm
      subst htc2
      subst hc
      rw [count_cons_eq, count_cons_eq, if_neg hd]
      omega
    · rw [if_neg hcond] at h
      cases hs : scanTarget rest c with
      | none =>
        rw [hs] at h
        simp at h
      | some r2 =>
        rw [hs] at h
        simp only [Option.map_some', Option.some.injEq] at h
        subst h
        rw [count_cons_eq, count_cons_eq, ih hs]
        omega

theorem secondPass_hit_le (rs : List LetterResult) (tc : List Char)
    (L : Char) (hL : L ≠ nulChar)
    (hst : ∀ r ∈ rs, r.status = "correct" ∨ r.status = "absent") :
    hitCount L (secondPass rs tc) ≤ correctCount L rs + tc.count L := by
  induction rs generalizing tc with
  | nil => simp [secondPass, hitCount, correctCount]
  | cons r rs' ih =>
    have hr := hst r (List.mem_cons_self r rs')
    have hrs' : ∀ x ∈ rs', x.status = "correct" ∨ x.status = "absent" :=
      fun x hx => hst x (List.mem_cons_of_mem r hx)
    unfold secondPass
    by_cases hc : r.status = "correct"
    · rw [if_pos hc, hitCount_cons, correctCount_cons,
        hitP_of_correct L hc, corP_of_correct L hc]
      have h2 := ih tc hrs'
      omega
    · rw [if_neg hc]
      have habs : r.status = "absent" := by tauto
      cases hs : scanTarget tc r.letter with
      | none =>
        rw [hitCount_cons, correctCount_cons, hitP_of_absent L habs,
          corP_of_not_correct L hc]
        have h2 := ih tc hrs'
        simp only [if_false, Bool.false_eq_true]
        omega
      | some tc2 =>
        rw [hitCount_cons, correctCount_cons, hitP_present,
          corP_of_not_correct L hc]
        simp only [Bool.false_eq_true, if_false]
        have h2 := ih tc2 hrs'
        have h3 := scanTarget_count hs L hL
        rw [h3]
        by_cases hl : r.letter = L
        · rw [if_pos (show (r.letter == L) = true by simp [hl]),
            if_pos hl.symm]
          omega
        · rw [if_neg (show ¬ (r.letter == L) = true by simp [hl]),
            if_neg (fun he => hl he.symm)]
          omega

theorem firstPairs_correct_le (g ts : List Char) (L : Char)
    (hL : L ≠ nulChar) :
    correctCount L (firstPairs g ts).1 +
      ((firstPairs g ts).2).count L ≤ ts.count L := by
  induction g generalizing ts with
  | nil => cases ts <;> simp [firstPairs, correctCount]
  | cons c g' ih =>
    cases ts with
    | nil => simp [firstPairs, correctCount]
    | cons t ts' =>
      unfold firstPairs
      have h2 := ih ts'
      by_cases hc : c = t
      · rw [if_pos hc]
        rw [correctCount_cons, corP_of_correct L rfl, count_cons_eq,
          count_cons_eq, if_neg hL]
        by_cases hl : c = L
        · rw [if_pos (show (c == L) = true by simp [hl]),
            if_pos (hl ▸ hc)]
          omega
        · rw [if_neg (show ¬ (c == L) = true by simp [hl]),
            if_neg (fun he => hl (hc.trans he.symm))]
          omega
      · rw [if_neg hc]
        rw [correctCount_cons, corP_of_not_correct L (by simp),
          count_cons_eq, count_cons_eq]
        simp only [Bool.false_eq_true, if_false]
        omega

/-- C6: for equal-length guess and target and any letter `L` (other than
the internal NUL marker, which is not a letter), the number of result
positions whose letter is `L` and whose status is `correct` or `present`
never exceeds the number of occurrences of `L` in the (canonicalized)
target word. -/
theorem duplicate_letter_conservation (guess target : List Char) (L : Char)
    (rs : List LetterResult) (hL : L ≠ nulChar)
    (hres : EvaluateGuess guess target = some rs) :
    hitCount L rs ≤ (toUpperStr target).count L := by
  unfold EvaluateGuess at hres
  by_cases h : guess.length ≠ target.length
  · rw [if_pos h] at hres
    exact absurd hres (by simp)
  · rw [if_neg h] at hres
    have hlen : (toUpperStr guess).length = (toUpperStr target).length := by
      simp only [toUpperStr, List.length_map]
      omega
    simp only [Option.some.injEq] at hres
    have hrs : rs = secondPass
        (firstPairs (toUpperStr guess) (toUpperStr target)).1
        (firstPairs (toUpperStr guess) (toUpperStr target)).2 := by
      rw [← firstPass_zero _ _ hlen]
      exact hres.symm
    rw [hrs]
    calc hitCount L (secondPass
          (firstPairs (toUpperStr guess) (toUpperStr target)).1
          (firstPairs (toUpperStr guess) (toUpperStr target)).2) ≤
        correctCount L
          (firstPairs (toUpperStr guess) (toUpperStr target)).1 +
          ((firstPairs (toUpperStr guess) (toUpperStr target)).2).count L :=
        secondPass_hit_le _ _ _ hL (firstPairs_statuses _ _)
      _ ≤ (toUpperStr target).count L := firstPairs_correct_le _ _ _ hL

/-- C6 witness: the two guess E's of `SPEED` against `ERASE` hit at most
the two target E's. -/
theorem duplicate_letter_conservation_w :
    hitCount 'E' [⟨'S', "present"⟩, ⟨'P', "absent"⟩, ⟨'E', "present"⟩,
      ⟨'E', "present"⟩, ⟨'D', "absent"⟩] ≤
      (toUpperStr ['E', 'R', 'A', 'S', 'E']).count 'E' :=
  duplicate_letter_conservation ['S', 'P', 'E', 'E', 'D']
    ['E', 'R', 'A', 'S', 'E'] 'E'
    [⟨'S', "present"⟩, ⟨'P', "absent"⟩, ⟨'E', "present"⟩,
      ⟨'E', "present"⟩, ⟨'D', "absent"⟩] (by decide) (by decide)

end Wordle
